import Mathlib

/-!
Verification development for the Nextory search demo server.

The development shallowly embeds the two core components that the
specification describes:

* the name-variant resolver (`server/nameVariants.js`): `getNameVariants`
  with its in-memory cache, Wikidata request construction, result
  filtering and family-closure caching;
* the federated suggest endpoint (`server/index.js`, `GET /api/suggest`):
  short-query guard, year-pattern extraction, the four category queries
  with asymmetric filtering, fan-out/fan-in error policy, match
  annotation and the years post-filter.

Strings are modelled as `List Char`.  JavaScript string primitives used
by the code (`toLowerCase`, `trim`, `split(/\s+/)`, `includes`,
`startsWith`, `Set` deduplication, the year regex) are given explicit
executable models restricted to the character ranges the program
manipulates (ASCII and Latin-1, which covers everything the code's own
`isLatinName` filter admits).  The external collaborators (Wikidata
fetch, search-engine client) are oracles passed in as parameters, and
each model function additionally reports which external calls it made so
that the "no external call" parts of the specification are stated
directly.
-/

/-- Strings are modelled as lists of characters. -/
abbrev Str := List Char

/-- Convert a Lean string literal to the list-of-characters model. -/
def chars (s : String) : Str := s.data

/-- The JavaScript whitespace class (`\s`, also used by `trim`):
tab, LF, VT, FF, CR, space, NBSP, Ogham space, the U+2000 block,
line/paragraph separators, narrow/medium spaces, ideographic space, BOM. -/
def isWsChar (c : Char) : Bool :=
  c.toNat == 9 || c.toNat == 10 || c.toNat == 11 || c.toNat == 12 ||
  c.toNat == 13 || c.toNat == 32 || c.toNat == 160 || c.toNat == 0x1680 ||
  (0x2000 ≤ c.toNat && c.toNat ≤ 0x200A) || c.toNat == 0x2028 ||
  c.toNat == 0x2029 || c.toNat == 0x202F || c.toNat == 0x205F ||
  c.toNat == 0x3000 || c.toNat == 0xFEFF

/-- Characters that JavaScript `toLowerCase` maps down by 32 within the
ASCII/Latin-1 range: `A`–`Z` and `À`–`Þ` except the multiplication sign
`×` (U+00D7). -/
def isUpperLatin (c : Char) : Bool :=
  (65 ≤ c.toNat && c.toNat ≤ 90) ||
  (192 ≤ c.toNat && c.toNat ≤ 222 && c.toNat != 215)

/-- Model of JavaScript `toLowerCase` on one character, restricted to the
ASCII/Latin-1 range (sufficient for every character the program's own
Latin filter admits). -/
def lowerChar (c : Char) : Char :=
  if isUpperLatin c then Char.ofNat (c.toNat + 32) else c

/-- Model of JavaScript `String.prototype.toLowerCase`. -/
def lowerStr (s : Str) : Str := s.map lowerChar

/-- Model of JavaScript `String.prototype.trim`: drop whitespace from
both ends. -/
def trimStr (l : Str) : Str :=
  ((l.dropWhile isWsChar).reverse.dropWhile isWsChar).reverse

/-- Split into the maximal runs of non-whitespace characters.  This is
`s.split(/\s+/).filter(Boolean)`: JavaScript's split on whitespace runs
can leave one empty leading piece, which `filter(Boolean)` removes, so
the composite returns exactly the non-empty runs. -/
def splitWs (l : Str) : List Str :=
  match l with
  | [] => []
  | c :: cs =>
    if isWsChar c then splitWs cs
    else
      match splitWs cs with
      | [] => [[c]]
      | w :: ws =>
        match cs with
        | [] => [[c]]
        | d :: _ => if isWsChar d then [c] :: w :: ws else (c :: w) :: ws

/-- Worker for `jsDedup`: the first argument accumulates the elements
already emitted. -/
def jsDedupGo {α : Type} [DecidableEq α] : List α → List α → List α
  | _, [] => []
  | seen, a :: rest =>
    if a ∈ seen then jsDedupGo seen rest else a :: jsDedupGo (a :: seen) rest

/-- Model of `[...new Set(list)]`: deduplicate keeping the first
occurrence of each element, in order. -/
def jsDedup {α : Type} [DecidableEq α] (l : List α) : List α :=
  jsDedupGo [] l

/-- Decimal rendering of an integer, as JavaScript `String(n)` produces
for integral numbers. -/
def intToStr (n : Int) : Str := (toString n).data

section NameVariants

/-!
## Name-variant resolver (`server/nameVariants.js`)

The in-memory `Map` is modelled as an association list where `set`
prepends (lookups see the newest binding, matching `Map.set`/`Map.get`
observations).  The Wikidata endpoint is an oracle from the constructed
request to an outcome; `fetched` records whether the oracle was
consulted at all.
-/

/-- The name-variant cache: normalized first name to variant list. -/
abbrev Cache := List (Str × List Str)

/-- `cache.set(k, v)` (observationally: later `get`/`has` see `v`). -/
def cacheSet (c : Cache) (k : Str) (v : List Str) : Cache := (k, v) :: c

/-- `isLatinName` from `nameVariants.js`: the regex
`^[a-zA-ZÀ-ÿ\s\-']+$`.  `À`–`ÿ` is the Latin-1 block U+00C0–U+00FF. -/
def isLatinChar (c : Char) : Bool :=
  (97 ≤ c.toNat && c.toNat ≤ 122) || (65 ≤ c.toNat && c.toNat ≤ 90) ||
  (192 ≤ c.toNat && c.toNat ≤ 255) || isWsChar c ||
  c.toNat == 45 || c.toNat == 39

/-- `isLatinName(str)`: one or more characters of the class above. -/
def isLatinName (s : Str) : Bool := !s.isEmpty && s.all isLatinChar

/-- The Wikidata SPARQL request, reduced to the data the spec talks
about: the capitalized label that is matched and the `LIMIT 30` row cap.
(`charAt(0).toUpperCase()` maps `a`–`z` and `à`–`þ` except `÷` up by 32;
`ß` uppercases to the two-character `SS` and `ÿ` to U+0178.) -/
structure WikidataRequest where
  label : Str
  limit : Nat
  deriving Repr, DecidableEq

/-- `normalizedName.charAt(0).toUpperCase() + normalizedName.slice(1)`. -/
def capitalize (s : Str) : Str :=
  match s with
  | [] => []
  | c :: cs =>
    let n := c.toNat
    (if n == 223 then [Char.ofNat 83, Char.ofNat 83]
     else if n == 255 then [Char.ofNat 0x178]
     else if (97 ≤ n && n ≤ 122) || (224 ≤ n && n ≤ 254 && n != 247) then
       [Char.ofNat (n - 32)]
     else [c]) ++ cs

/-- The request `getNameVariants` builds for a normalized name. -/
def wikidataRequest (normalizedName : Str) : WikidataRequest :=
  { label := capitalize normalizedName, limit := 30 }

/-- Outcome of one fetch against the Wikidata endpoint.  `success`
carries, for each result row, the optional `variantLabel.value`
(`none` models a missing binding, dropped by `filter(Boolean)`).
`httpError` is a response with `ok` false; `thrown` covers the abort of
the 5-second timeout and any other exception (network failure,
malformed JSON body). -/
inductive FetchOutcome where
  | success (bindings : List (Option Str))
  | httpError
  | thrown
  deriving Repr, DecidableEq

/-- The Wikidata endpoint as an oracle. -/
abbrev Wikidata := WikidataRequest → FetchOutcome

/-- Result of one `getNameVariants` call: the returned variant list, the
cache afterwards, and whether the external endpoint was consulted. -/
structure ResolveResult where
  variants : List Str
  cache : Cache
  fetched : Bool
  deriving Repr, DecidableEq

/-- `firstName.toLowerCase().trim()`. -/
def normName (firstName : Str) : Str := trimStr (lowerStr firstName)

/-- The variant extraction on a successful response:
`[...new Set(bindings.map(b => b.variantLabel?.value?.toLowerCase())
.filter(Boolean).filter(isLatinName).filter(v => v.length >= 2 && v.length <= 20))]`. -/
def deriveVariants (bindings : List (Option Str)) : List Str :=
  jsDedup ((((bindings.map (Option.map lowerStr)).filterMap id).filter
      (fun v => !v.isEmpty)).filter
      (fun v => isLatinName v && (2 ≤ v.length && v.length ≤ 20)))

/-- `[...new Set([normalizedName, ...allVariants])]`. -/
def nameFamily (normalizedName : Str) (bindings : List (Option Str)) : List Str :=
  jsDedup (normalizedName :: deriveVariants bindings)

/-- The family-closure loop: for every family member not already cached,
cache the family minus that member. -/
def closeFamily (fam : List Str) (c : Cache) : Cache :=
  fam.foldl
    (fun acc name =>
      if (acc.lookup name).isSome then acc
      else cacheSet acc name (fam.filter (fun v => v ≠ name)))
    c

/-- `getNameVariants(firstName)` from `server/nameVariants.js` (the
family-closure version), as a state transformer over the cache with the
endpoint passed as an oracle.  The `try`/`catch` wrapping the whole
body is encoded by the `httpError`/`thrown` branches: every non-success
outcome negative-caches an empty list and returns empty, so the model
function is total exactly because the source function never throws. -/
def getNameVariants (c : Cache) (firstName : Str) (w : Wikidata) : ResolveResult :=
  let normalizedName := normName firstName
  match c.lookup normalizedName with
  | some v => ⟨v, c, false⟩
  | none =>
    match w (wikidataRequest normalizedName) with
    | .httpError => ⟨[], cacheSet c normalizedName [], true⟩
    | .thrown => ⟨[], cacheSet c normalizedName [], true⟩
    | .success bindings =>
      let fam := nameFamily normalizedName bindings
      ⟨fam.filter (fun v => v ≠ normalizedName), closeFamily fam c, true⟩

/-- A process run: a sequence of `getNameVariants` calls threading the
cache. -/
def runCalls (c : Cache) : List (Str × Wikidata) → Cache
  | [] => c
  | (n, w) :: rest => runCalls (getNameVariants c n w).cache rest

end NameVariants

section YearRegex

/-!
## The year regex `/\b(19|20)\d{0,2}\b/g`

`q.match(re)` and `q.replace(re, '')` both scan left to right, at each
position attempting a match (greedy in the `\d{0,2}` part, backtracking
to satisfy the trailing `\b`) and, after a successful match, resuming
right after it.  One scan computes both the match list and the residual
string.  `\b` holds between a word character (`[A-Za-z0-9_]`) and a
non-word character or string edge; since every character a match
consumes is a digit, the leading `\b` is equivalent to "previous
character is absent or non-word" and the trailing `\b` to "next
character is absent or non-word".
-/

/-- Decimal digits (`\d`). -/
def isDigitChar (c : Char) : Bool :=
  48 ≤ c.toNat && c.toNat ≤ 57

/-- Word characters (`\w`): ASCII letters, digits, underscore. -/
def isWordChar (c : Char) : Bool :=
  (48 ≤ c.toNat && c.toNat ≤ 57) || (65 ≤ c.toNat && c.toNat ≤ 90) ||
  (97 ≤ c.toNat && c.toNat ≤ 122) || c.toNat == 95

/-- The trailing `\b` after a digit: next character absent or non-word. -/
def noWordAhead : Str → Bool
  | [] => true
  | c :: _ => !isWordChar c

/-- Attempt a match of `(19|20)\d{0,2}\b` at the current position
(the leading `\b` is checked by the caller).  Greedy: two extra digits
are preferred over one over zero, backtracking on the trailing `\b`.
Returns the matched characters and the remainder of the input. -/
def matchYearHere : Str → Option (Str × Str)
  | c1 :: c2 :: rest =>
    if (c1 == '1' && c2 == '9') || (c1 == '2' && c2 == '0') then
      match rest with
      | d1 :: d2 :: rest2 =>
        if isDigitChar d1 && isDigitChar d2 && noWordAhead rest2 then
          some ([c1, c2, d1, d2], rest2)
        else if isDigitChar d1 && !isWordChar d2 then
          some ([c1, c2, d1], d2 :: rest2)
        else if !isWordChar d1 then some ([c1, c2], rest)
        else none
      | [d1] =>
        if isDigitChar d1 then some ([c1, c2, d1], [])
        else if !isWordChar d1 then some ([c1, c2], [d1])
        else none
      | [] => some ([c1, c2], [])
    else none
  | _ => none

/-- The global scan.  `prevIsWord` says whether the character just
before the current position is a word character (`false` at the start
of the string); a match is attempted only when it is not, because every
match starts with a digit and so needs `\b` before it.  After a match
the scan resumes right after it with `prevIsWord := true` (the last
matched character is a digit).  The fuel argument is an upper bound on
the remaining input length, supplied as the input length at top level. -/
def scanYearsAux : Nat → Bool → Str → List Str × Str
  | 0, _, l => ([], l)
  | _ + 1, _, [] => ([], [])
  | fuel + 1, prevIsWord, c :: cs =>
    if prevIsWord then
      let p := scanYearsAux fuel (isWordChar c) cs
      (p.1, c :: p.2)
    else
      match matchYearHere (c :: cs) with
      | some (m, rest) =>
        let p := scanYearsAux fuel true rest
        (m :: p.1, p.2)
      | none =>
        let p := scanYearsAux fuel (isWordChar c) cs
        (p.1, c :: p.2)

/-- One scan of the year regex over the whole query. -/
def yearScan (q : Str) : List Str × Str := scanYearsAux q.length false q

/-- `q.match(/\b(19|20)\d{0,2}\b/g)`, as a list (`[]` for JavaScript's
`null`). -/
def suggestYearMatches (q : Str) : List Str := (yearScan q).1

/-- `q.replace(/\b(19|20)\d{0,2}\b/g, '').trim()`. -/
def suggestTextQuery (q : Str) : Str := trimStr (yearScan q).2

/-- `textQuery.toLowerCase().split(/\s+/).filter(Boolean)`. -/
def suggestQueryTerms (q : Str) : List Str := splitWs (lowerStr (suggestTextQuery q))

end YearRegex

section Suggest

/-!
## Federated suggest endpoint (`server/index.js`, `GET /api/suggest`)

The model covers the handler from the short-query guard onward.  The
query-string parsing of the three filter parameters
(`authors.split(',')` etc., lines just above the filter-clause builder)
is upstream of the model: the handler takes the parsed
`ActiveFilters`.  The raw `q` parameter is taken as an optional string
(`none` for a missing parameter), and the guard `!q || q.length < 2`
checks the *untrimmed* length, as in the source.  The search engine is
an oracle with one field per category query shape; each issued request
is also recorded so that "no engine call" properties can be stated.
`Promise.all` either yields all four results or rejects with a failing
query's error; the model deterministically surfaces the first failing
result in array order.
-/

/-- Parsed active filter state (`activeFilters` in the handler). -/
structure ActiveFilters where
  authors : List Str
  genres : List Str
  years : List Int
  deriving Repr, DecidableEq

/-- One hard filter clause (`{terms: {...}}`). -/
inductive FilterClause where
  | byAuthor (values : List Str)
  | byGenre (values : List Str)
  | byYear (values : List Int)
  deriving Repr, DecidableEq

/-- `!f.terms?.['author.keyword']` is false exactly on the author
clause. -/
def FilterClause.isAuthorClause : FilterClause → Bool
  | .byAuthor _ => true
  | _ => false

/-- `!f.terms?.genre` is false exactly on the genre clause. -/
def FilterClause.isGenreClause : FilterClause → Bool
  | .byGenre _ => true
  | _ => false

/-- `!f.terms?.releaseYear` is false exactly on the year clause. -/
def FilterClause.isYearClause : FilterClause → Bool
  | .byYear _ => true
  | _ => false

/-- `buildFilterClause()` from the handler. -/
def buildFilterClause (af : ActiveFilters) : List FilterClause :=
  (if af.authors ≠ [] then [FilterClause.byAuthor af.authors] else []) ++
  (if af.genres ≠ [] then [FilterClause.byGenre af.genres] else []) ++
  (if af.years ≠ [] then [FilterClause.byYear af.years] else [])

/-- One `should` clause of a category query: a `match` on a field (with
optional boost and the `operator: 'or'` flag) or a case-insensitive
`prefix` clause on a field. -/
inductive ShouldClause where
  | matchField (field : Str) (query : Str) (boost : Option ℚ) (operatorOr : Bool)
  | prefixClause (field : Str) (value : Str) (caseInsensitive : Bool)
  deriving Repr, DecidableEq

/-- An aggregation-style category query (`size: 0` plus a `terms`
aggregation): used by the authors, genres and years categories. -/
structure AggQuery where
  shoulds : List ShouldClause
  minimumShouldMatch : Option Nat
  filters : List FilterClause
  aggField : Str
  aggSize : Nat
  aggOrderKeyDesc : Bool
  deriving Repr, DecidableEq

/-- The titles query: returns documents. -/
structure TitlesQuery where
  shoulds : List ShouldClause
  filters : List FilterClause
  size : Nat
  sourceFields : List Str
  deriving Repr, DecidableEq

/-- The authors category query (lines 447–478); `pf` is the
process-wide `hasPhoneticFields` flag. -/
def suggestAuthorsQuery (pf : Bool) (textQuery : Str) (af : ActiveFilters) : AggQuery :=
  { shoulds :=
      [ShouldClause.matchField (chars "author.autocomplete") textQuery none true,
       ShouldClause.matchField (chars "nameVariants") textQuery (some (0.8 : ℚ)) false] ++
      (if pf then [ShouldClause.matchField (chars "author.phonetic") textQuery (some (0.5 : ℚ)) false] else [])
    minimumShouldMatch := none
    filters := (buildFilterClause af).filter (fun f => !f.isAuthorClause)
    aggField := chars "author.keyword"
    aggSize := 5
    aggOrderKeyDesc := false }

/-- The titles category query (lines 481–512). -/
def suggestTitlesQuery (pf : Bool) (textQuery : Str) (af : ActiveFilters) : TitlesQuery :=
  { shoulds :=
      [ShouldClause.matchField (chars "title.autocomplete") textQuery (some (2 : ℚ)) true,
       ShouldClause.matchField (chars "author.autocomplete") textQuery none true,
       ShouldClause.matchField (chars "nameVariants") textQuery (some (0.8 : ℚ)) false] ++
      (if pf then
        [ShouldClause.matchField (chars "title.phonetic") textQuery (some (0.5 : ℚ)) false,
         ShouldClause.matchField (chars "author.phonetic") textQuery (some (0.3 : ℚ)) false]
       else [])
    filters := buildFilterClause af
    size := 5
    sourceFields := [chars "title", chars "author", chars "releaseYear", chars "rating", chars "genre"] }

/-- The genres category query (lines 515–541). -/
def suggestGenresQuery (queryTerms : List Str) (af : ActiveFilters) : AggQuery :=
  { shoulds := queryTerms.map (fun term => ShouldClause.prefixClause (chars "genre") term true)
    minimumShouldMatch := none
    filters := (buildFilterClause af).filter (fun f => !f.isGenreClause)
    aggField := chars "genre"
    aggSize := 5
    aggOrderKeyDesc := false }

/-- The years category query (lines 544–571). -/
def suggestYearsQuery (yearPattern : List Str) (af : ActiveFilters) : AggQuery :=
  { shoulds := yearPattern.map (fun yp => ShouldClause.matchField (chars "releaseYear.autocomplete") yp none false)
    minimumShouldMatch := some 1
    filters := (buildFilterClause af).filter (fun f => !f.isYearClause)
    aggField := chars "releaseYear"
    aggSize := 10
    aggOrderKeyDesc := true }

/-- A `terms`-aggregation bucket with a string key. -/
structure Bucket where
  key : Str
  docCount : Nat
  deriving Repr, DecidableEq

/-- A `terms`-aggregation bucket with an integer key (years). -/
structure YearBucket where
  key : Int
  docCount : Nat
  deriving Repr, DecidableEq

/-- A document hit as consumed by the titles mapping (`_id` plus the
requested `_source` fields; `rating` is carried opaquely). -/
structure Hit where
  id : Str
  title : Str
  author : Str
  releaseYear : Int
  rating : ℚ
  deriving Repr, DecidableEq

/-- The search engine as an oracle: each category query shape either
yields its (already unwrapped) buckets or hits, or fails with an error
message. -/
structure Engine where
  authorsSearch : AggQuery → Except Str (List Bucket)
  titlesSearch : TitlesQuery → Except Str (List Hit)
  genresSearch : AggQuery → Except Str (List Bucket)
  yearsSearch : AggQuery → Except Str (List YearBucket)

/-- An engine call the handler issued. -/
inductive IssuedCall where
  | authorsQ (qy : AggQuery)
  | titlesQ (qy : TitlesQuery)
  | genresQ (qy : AggQuery)
  | yearsQ (qy : AggQuery)
  deriving Repr, DecidableEq

/-- An authors or genres suggestion. -/
structure FacetSug where
  value : Str
  count : Nat
  matchedTerms : List Str
  deriving Repr, DecidableEq

/-- A titles suggestion (an actual book). -/
structure TitleSug where
  id : Str
  value : Str
  author : Str
  year : Int
  rating : ℚ
  matchedTerms : List Str
  deriving Repr, DecidableEq

/-- A years suggestion. -/
structure YearSug where
  value : Int
  count : Nat
  deriving Repr, DecidableEq

/-- The four suggestion lists of a 200 response. -/
structure Payload where
  authors : List FacetSug
  titles : List TitleSug
  genres : List FacetSug
  years : List YearSug
  deriving Repr, DecidableEq

/-- Outcome of a suggest request: a 200 payload or a 500 with the
underlying error message. -/
inductive SuggestOutcome where
  | ok (p : Payload)
  | fail (msg : Str)
  deriving Repr, DecidableEq

/-- A suggest request's outcome together with the engine calls it
issued. -/
structure SuggestRun where
  result : SuggestOutcome
  calls : List IssuedCall
  deriving Repr, DecidableEq

/-- `findMatchedTerms(value, terms)`:
`terms.filter(term => value.toLowerCase().includes(term))`. -/
def findMatchedTerms (value : Str) (terms : List Str) : List Str :=
  terms.filter (fun term => decide (term <:+: lowerStr value))

/-- `Promise.all` rejection: the error of the first failing result in
array order (the model's deterministic choice among the failing ones). -/
def firstError {α β γ δ : Type} (a : Except Str α) (b : Except Str β)
    (c : Except Str γ) (d : Except Str δ) : Option Str :=
  match a with
  | .error e => some e
  | .ok _ =>
    match b with
    | .error e => some e
    | .ok _ =>
      match c with
      | .error e => some e
      | .ok _ =>
        match d with
        | .error e => some e
        | .ok _ => none

/-- Projection of an `Except`'s error, if any. -/
def exceptErr {α : Type} : Except Str α → Option Str
  | .error e => some e
  | .ok _ => none

/-- Assembly of the 200 payload from the four (unwrapped) engine
results: the three mapping steps with `findMatchedTerms` annotation and
the years post-filter (`String(y.value).startsWith(yp)` against the
detected patterns, applied only when a pattern was found). -/
def assemblePayload (queryTerms yearPattern : List Str) (ab : List Bucket)
    (th : List Hit) (gb : List Bucket) (yb : List YearBucket) : Payload :=
  { authors := ab.map (fun b => FacetSug.mk b.key b.docCount (findMatchedTerms b.key queryTerms))
    titles := th.map (fun h =>
      TitleSug.mk h.id h.title h.author h.releaseYear h.rating (findMatchedTerms h.title queryTerms))
    genres := gb.map (fun b => FacetSug.mk b.key b.docCount (findMatchedTerms b.key queryTerms))
    years :=
      if yearPattern ≠ [] then
        (yb.map (fun b => YearSug.mk b.key b.docCount)).filter
          (fun y => yearPattern.any (fun yp => yp.isPrefixOf (intToStr y.value)))
      else yb.map (fun b => YearSug.mk b.key b.docCount) }

/-- The four engine results, each gated exactly as in the source:
authors/titles/genres run only when the residual text query has length
≥ 2; years runs only when a year pattern was found (the non-issued ones
are the immediate empty defaults of the conditional expressions). -/
def suggestResults (pf : Bool) (eng : Engine) (qs : Str) (af : ActiveFilters) :
    Except Str (List Bucket) × Except Str (List Hit) ×
      Except Str (List Bucket) × Except Str (List YearBucket) :=
  let yearPattern := suggestYearMatches qs
  let textQuery := suggestTextQuery qs
  ((if 2 ≤ textQuery.length then eng.authorsSearch (suggestAuthorsQuery pf textQuery af) else .ok []),
   (if 2 ≤ textQuery.length then eng.titlesSearch (suggestTitlesQuery pf textQuery af) else .ok []),
   (if 2 ≤ textQuery.length then eng.genresSearch (suggestGenresQuery (suggestQueryTerms qs) af) else .ok []),
   (if yearPattern ≠ [] then eng.yearsSearch (suggestYearsQuery yearPattern af) else .ok []))

/-- The body of the suggest handler after the short-query guard, for a
query `qs` of untrimmed length ≥ 2. -/
def suggestCore (pf : Bool) (eng : Engine) (qs : Str) (af : ActiveFilters) : SuggestRun :=
  let yearPattern := suggestYearMatches qs
  let textQuery := suggestTextQuery qs
  let gateText := 2 ≤ textQuery.length
  let gateYears := yearPattern ≠ []
  let res := suggestResults pf eng qs af
  let calls : List IssuedCall :=
    (if gateText then
      [IssuedCall.authorsQ (suggestAuthorsQuery pf textQuery af),
       IssuedCall.titlesQ (suggestTitlesQuery pf textQuery af),
       IssuedCall.genresQ (suggestGenresQuery (suggestQueryTerms qs) af)]
     else []) ++
    (if gateYears then [IssuedCall.yearsQ (suggestYearsQuery yearPattern af)] else [])
  match firstError res.1 res.2.1 res.2.2.1 res.2.2.2 with
  | some e => ⟨.fail e, calls⟩
  | none =>
    ⟨.ok (assemblePayload (suggestQueryTerms qs) yearPattern
        (res.1.toOption.getD []) (res.2.1.toOption.getD [])
        (res.2.2.1.toOption.getD []) (res.2.2.2.toOption.getD [])),
     calls⟩

/-- The error messages among the four (gated) engine results, in array
order. -/
def suggestErrors (pf : Bool) (eng : Engine) (qs : Str) (af : ActiveFilters) : List Str :=
  [exceptErr (suggestResults pf eng qs af).1,
   exceptErr (suggestResults pf eng qs af).2.1,
   exceptErr (suggestResults pf eng qs af).2.2.1,
   exceptErr (suggestResults pf eng qs af).2.2.2].filterMap id

/-- The suggest handler: the guard `!q || q.length < 2` (`none` models a
missing `q`, and the empty string is falsy) answers 200 with four empty
lists and issues no engine call; otherwise the federated body runs. -/
def suggest (pf : Bool) (eng : Engine) (q : Option Str) (af : ActiveFilters) : SuggestRun :=
  match q with
  | none => ⟨.ok ⟨[], [], [], []⟩, []⟩
  | some qs =>
    if qs.length < 2 then ⟨.ok ⟨[], [], [], []⟩, []⟩
    else suggestCore pf eng qs af

end Suggest

/-- Spec-side definition, following the claim's words: variants
"consist only of Latin-script letters, spaces, hyphens and apostrophes".
Latin-script letters are the ASCII letters and the letters of the
Latin-1 block (U+00C0–U+00FF excluding the multiplication sign U+00D7
and the division sign U+00F7, which are symbols, not letters). -/
def specLatinAllowedChar (c : Char) : Bool :=
  (97 ≤ c.toNat && c.toNat ≤ 122) || (65 ≤ c.toNat && c.toNat ≤ 90) ||
  (192 ≤ c.toNat && c.toNat ≤ 255 && c.toNat != 215 && c.toNat != 247) ||
  c.toNat == 32 || c.toNat == 45 || c.toNat == 39

section Lemmas

/-! ## Basic lemmas about the string model -/

theorem charToNat_ofNat {n : Nat} (h : n < 55296) : (Char.ofNat n).toNat = n := by
  have hv : n.isValidChar := Or.inl h
  rw [Char.ofNat, dif_pos hv]
  rfl

theorem isUpperLatin_iff (c : Char) :
    isUpperLatin c = true ↔
      (65 ≤ c.toNat ∧ c.toNat ≤ 90) ∨
      (192 ≤ c.toNat ∧ c.toNat ≤ 222 ∧ c.toNat ≠ 215) := by
  simp [isUpperLatin, and_assoc]

theorem isUpperLatin_toNat_lt (c : Char) (h : isUpperLatin c = true) : c.toNat < 223 := by
  rw [isUpperLatin_iff] at h
  omega

/-- Lowercasing never yields a character that lowercasing would map. -/
theorem lowerChar_not_upper (c : Char) : isUpperLatin (lowerChar c) = false := by
  unfold lowerChar
  by_cases h : isUpperLatin c = true
  · rw [if_pos h]
    have hlt := isUpperLatin_toNat_lt c h
    have hnat : (Char.ofNat (c.toNat + 32)).toNat = c.toNat + 32 :=
      charToNat_ofNat (by omega)
    rw [isUpperLatin_iff c] at h
    rw [Bool.eq_false_iff]
    intro htrue
    rw [isUpperLatin_iff, hnat] at htrue
    omega
  · rw [if_neg h]
    exact Bool.not_eq_true _ |>.mp h

/-! ## `jsDedup` -/

theorem jsDedup_go_mem {α : Type} [DecidableEq α] (a : α) :
    ∀ (l seen : List α), a ∈ jsDedupGo seen l ↔ a ∈ l ∧ a ∉ seen := by
  intro l
  induction l with
  | nil => intro seen; simp [jsDedupGo]
  | cons b rest ih =>
    intro seen
    by_cases hb : b ∈ seen
    · simp only [jsDedupGo, if_pos hb, ih]
      constructor
      · rintro ⟨h1, h2⟩; exact ⟨List.mem_cons_of_mem _ h1, h2⟩
      · rintro ⟨h1, h2⟩
        rcases List.mem_cons.mp h1 with rfl | h1
        · exact absurd hb h2
        · exact ⟨h1, h2⟩
    · simp only [jsDedupGo, if_neg hb, List.mem_cons, ih, List.mem_cons, not_or]
      constructor
      · rintro (rfl | ⟨h1, h2, h3⟩)
        · exact ⟨Or.inl rfl, fun hs => hb (by simpa using hs)⟩
        · exact ⟨Or.inr h1, h3⟩
      · rintro ⟨rfl | h1, h2⟩
        · exact Or.inl rfl
        · by_cases hab : a = b
          · exact Or.inl hab
          · exact Or.inr ⟨h1, hab, h2⟩

theorem jsDedup_mem {α : Type} [DecidableEq α] (a : α) (l : List α) :
    a ∈ jsDedup l ↔ a ∈ l := by
  simp [jsDedup, jsDedup_go_mem]

theorem jsDedup_go_nodup {α : Type} [DecidableEq α] :
    ∀ (l seen : List α), (jsDedupGo seen l).Nodup := by
  intro l
  induction l with
  | nil => intro seen; simp [jsDedupGo]
  | cons b rest ih =>
    intro seen
    by_cases hb : b ∈ seen
    · simpa [jsDedupGo, if_pos hb] using ih seen
    · simp only [jsDedupGo, if_neg hb, List.nodup_cons]
      refine ⟨fun hmem => ?_, ih (b :: seen)⟩
      exact ((jsDedup_go_mem b rest (b :: seen)).mp hmem).2 (List.mem_cons_self b seen)

theorem jsDedup_nodup {α : Type} [DecidableEq α] (l : List α) : (jsDedup l).Nodup :=
  jsDedup_go_nodup l []

/-! ## Cache lemmas -/

theorem cacheSet_lookup_self (c : Cache) (k : Str) (v : List Str) :
    (cacheSet c k v).lookup k = some v := by
  simp [cacheSet, List.lookup_cons]

theorem cacheSet_lookup_other (c : Cache) {k k' : Str} (v : List Str) (h : k ≠ k') :
    (cacheSet c k' v).lookup k = c.lookup k := by
  simp [cacheSet, List.lookup_cons, beq_false_of_ne h]

/-- The family-closure fold step. -/
theorem closeFamily_eq (fam : List Str) (c : Cache) :
    closeFamily fam c =
      fam.foldl
        (fun acc name =>
          if (acc.lookup name).isSome then acc
          else cacheSet acc name (fam.filter (fun v => v ≠ name)))
        c := rfl

theorem closeFamily_fold_preserves (all : List Str) :
    ∀ (iter : List Str) (c : Cache) (k : Str) (v : List Str), c.lookup k = some v →
      ((iter.foldl
        (fun acc name =>
          if (acc.lookup name).isSome then acc
          else cacheSet acc name (all.filter (fun v => v ≠ name)))
        c).lookup k) = some v := by
  intro iter
  induction iter with
  | nil => intro c k v h; simpa using h
  | cons a rest ih =>
    intro c k v h
    simp only [List.foldl_cons]
    by_cases hs : (c.lookup a).isSome
    · rw [if_pos hs]; exact ih c k v h
    · rw [if_neg hs]
      apply ih
      have hka : k ≠ a := by
        rintro rfl
        rw [h] at hs
        exact hs rfl
      rw [cacheSet_lookup_other _ _ hka]
      exact h

/-- Once a key is cached, the family-closure loop does not change its
value. -/
theorem closeFamily_preserves (fam : List Str) (c : Cache) (k : Str) (v : List Str)
    (h : c.lookup k = some v) : (closeFamily fam c).lookup k = some v := by
  rw [closeFamily_eq]
  exact closeFamily_fold_preserves fam fam c k v h

theorem closeFamily_fold_sets (all : List Str) :
    ∀ (iter : List Str) (c : Cache) (k : Str), iter.Nodup → k ∈ iter →
      c.lookup k = none →
      ((iter.foldl
        (fun acc name =>
          if (acc.lookup name).isSome then acc
          else cacheSet acc name (all.filter (fun v => v ≠ name)))
        c).lookup k) = some (all.filter (fun v => v ≠ k)) := by
  intro iter
  induction iter with
  | nil => intro c k _ hk; exact absurd hk (List.not_mem_nil k)
  | cons a rest ih =>
    intro c k hnd hk hnone
    simp only [List.foldl_cons]
    rcases List.mem_cons.mp hk with rfl | hkrest
    · rw [if_neg (by rw [hnone]; simp)]
      exact closeFamily_fold_preserves all rest _ k _ (cacheSet_lookup_self c k _)
    · have hka : k ≠ a := by
        rintro rfl
        exact (List.nodup_cons.mp hnd).1 hkrest
      by_cases hs : (c.lookup a).isSome
      · rw [if_pos hs]
        exact ih c k (List.nodup_cons.mp hnd).2 hkrest hnone
      · rw [if_neg hs]
        apply ih _ k (List.nodup_cons.mp hnd).2 hkrest
        rw [cacheSet_lookup_other _ _ hka]
        exact hnone

/-- A family member absent from the cache gets exactly the family minus
itself. -/
theorem closeFamily_sets (fam : List Str) (c : Cache) (k : Str)
    (hnd : fam.Nodup) (hk : k ∈ fam) (hnone : c.lookup k = none) :
    (closeFamily fam c).lookup k = some (fam.filter (fun v => v ≠ k)) := by
  rw [closeFamily_eq]
  exact closeFamily_fold_sets fam fam c k hnd hk hnone

/-- Every family member is cached after the closure loop. -/
theorem closeFamily_isSome (fam : List Str) (c : Cache) (k : Str)
    (hnd : fam.Nodup) (hk : k ∈ fam) :
    ((closeFamily fam c).lookup k).isSome := by
  cases hv : c.lookup k with
  | some v => rw [closeFamily_preserves fam c k v hv]; rfl
  | none => rw [closeFamily_sets fam c k hnd hk hv]; rfl

end Lemmas

section ResolverLemmas

/-! ## Path lemmas for `getNameVariants` -/

theorem getNameVariants_hit (c : Cache) (n : Str) (w : Wikidata) (v : List Str)
    (h : c.lookup (normName n) = some v) :
    getNameVariants c n w = ⟨v, c, false⟩ := by
  simp only [getNameVariants, h]

theorem getNameVariants_failure (c : Cache) (n : Str) (w : Wikidata)
    (hmiss : c.lookup (normName n) = none)
    (hfail : w (wikidataRequest (normName n)) = .httpError ∨
      w (wikidataRequest (normName n)) = .thrown) :
    getNameVariants c n w = ⟨[], cacheSet c (normName n) [], true⟩ := by
  rcases hfail with hf | hf <;> simp only [getNameVariants, hmiss, hf]

theorem getNameVariants_success (c : Cache) (n : Str) (w : Wikidata)
    (bindings : List (Option Str))
    (hmiss : c.lookup (normName n) = none)
    (hsucc : w (wikidataRequest (normName n)) = .success bindings) :
    getNameVariants c n w =
      ⟨(nameFamily (normName n) bindings).filter (fun v => v ≠ normName n),
       closeFamily (nameFamily (normName n) bindings) c, true⟩ := by
  simp only [getNameVariants, hmiss, hsucc]

theorem nameFamily_nodup (nn : Str) (bindings : List (Option Str)) :
    (nameFamily nn bindings).Nodup := jsDedup_nodup _

theorem nameFamily_self_mem (nn : Str) (bindings : List (Option Str)) :
    nn ∈ nameFamily nn bindings :=
  (jsDedup_mem nn _).mpr (List.mem_cons_self nn _)

/-- Whatever path a call takes, afterwards the cache maps the normalized
name to exactly the returned list. -/
theorem getNameVariants_caches_result (c : Cache) (n : Str) (w : Wikidata) :
    (getNameVariants c n w).cache.lookup (normName n) =
      some (getNameVariants c n w).variants := by
  cases hv : c.lookup (normName n) with
  | some v => rw [getNameVariants_hit c n w v hv]; exact hv
  | none =>
    cases hw : w (wikidataRequest (normName n)) with
    | success bindings =>
      rw [getNameVariants_success c n w bindings hv hw]
      exact closeFamily_sets _ c _ (nameFamily_nodup _ _) (nameFamily_self_mem _ _) hv
    | httpError =>
      rw [getNameVariants_failure c n w hv (Or.inl hw)]
      exact cacheSet_lookup_self c _ []
    | thrown =>
      rw [getNameVariants_failure c n w hv (Or.inr hw)]
      exact cacheSet_lookup_self c _ []

/-- A single call never changes an existing cache binding. -/
theorem getNameVariants_preserves (c : Cache) (n : Str) (w : Wikidata)
    (k : Str) (v : List Str) (h : c.lookup k = some v) :
    (getNameVariants c n w).cache.lookup k = some v := by
  cases hv : c.lookup (normName n) with
  | some v' => rw [getNameVariants_hit c n w v' hv]; exact h
  | none =>
    have hk : k ≠ normName n := by
      rintro rfl
      rw [h] at hv
      exact Option.noConfusion hv
    cases hw : w (wikidataRequest (normName n)) with
    | success bindings =>
      rw [getNameVariants_success c n w bindings hv hw]
      exact closeFamily_preserves _ c k v h
    | httpError =>
      rw [getNameVariants_failure c n w hv (Or.inl hw)]
      rw [cacheSet_lookup_other _ _ hk]
      exact h
    | thrown =>
      rw [getNameVariants_failure c n w hv (Or.inr hw)]
      rw [cacheSet_lookup_other _ _ hk]
      exact h

end ResolverLemmas

section ResolverClaims

/-- **C1, counterexample.**  The claim as stated is false: a family member
that was already cached before the family-closure call keeps its old
entry.  Concretely: a failed lookup for "chris" negative-caches
`chris ↦ []`; a subsequent cache-miss success for "christopher" whose
response contains "Chris" returns a list containing "chris", but the
cached list for "chris" stays `[]` (not the family minus "chris"), and a
subsequent `getNameVariants("chris")` answers `[]` from the cache —
which does not contain "christopher". -/
theorem C1_counterexample :
    chars "chris" ∈
      (getNameVariants
        (getNameVariants [] (chars "chris") (fun _ => FetchOutcome.httpError)).cache
        (chars "christopher")
        (fun _ => FetchOutcome.success [some (chars "Chris")])).variants ∧
    (getNameVariants
        (getNameVariants [] (chars "chris") (fun _ => FetchOutcome.httpError)).cache
        (chars "christopher")
        (fun _ => FetchOutcome.success [some (chars "Chris")])).cache.lookup (chars "chris") =
      some [] ∧
    (getNameVariants
        (getNameVariants
          (getNameVariants [] (chars "chris") (fun _ => FetchOutcome.httpError)).cache
          (chars "christopher")
          (fun _ => FetchOutcome.success [some (chars "Chris")])).cache
        (chars "chris") (fun _ => FetchOutcome.httpError)).fetched = false ∧
    (getNameVariants
        (getNameVariants
          (getNameVariants [] (chars "chris") (fun _ => FetchOutcome.httpError)).cache
          (chars "christopher")
          (fun _ => FetchOutcome.success [some (chars "Chris")])).cache
        (chars "chris") (fun _ => FetchOutcome.httpError)).variants = [] := by
  decide

/-- **C1 (amended).**  After a cache-miss `getNameVariants(N)` that
succeeds, the cache holds an entry for every member of the family
`{normalized N} ∪ {filtered variants}`; every member `M` of the returned
list that was *not* cached before the call is mapped to the family minus
`M` (in particular never containing `M` itself), that list contains the
normalized `N`, and a subsequent call for any name normalizing to `M`
returns it straight from the cache with no external call. -/
theorem C1_family_closure (c : Cache) (n : Str) (w : Wikidata)
    (bindings : List (Option Str)) (M m n' : Str) (w' : Wikidata)
    (hsucc : w (wikidataRequest (normName n)) = FetchOutcome.success bindings)
    (hmiss : c.lookup (normName n) = none)
    (hM : M ∈ (getNameVariants c n w).variants)
    (hMnew : c.lookup M = none)
    (hm : m ∈ nameFamily (normName n) bindings)
    (hn' : normName n' = M) :
    ((getNameVariants c n w).cache.lookup m).isSome ∧
    (getNameVariants c n w).cache.lookup M =
      some ((nameFamily (normName n) bindings).filter (fun v => v ≠ M)) ∧
    normName n ∈ (nameFamily (normName n) bindings).filter (fun v => v ≠ M) ∧
    getNameVariants (getNameVariants c n w).cache n' w' =
      ⟨(nameFamily (normName n) bindings).filter (fun v => v ≠ M),
       (getNameVariants c n w).cache, false⟩ := by
  rw [getNameVariants_success c n w bindings hmiss hsucc] at hM ⊢
  have hMfam : M ∈ nameFamily (normName n) bindings ∧ M ≠ normName n := by
    have := List.mem_filter.mp hM
    exact ⟨this.1, by simpa using this.2⟩
  have hlookupM :
      (closeFamily (nameFamily (normName n) bindings) c).lookup M =
        some ((nameFamily (normName n) bindings).filter (fun v => v ≠ M)) :=
    closeFamily_sets _ c M (nameFamily_nodup _ _) hMfam.1 hMnew
  refine ⟨closeFamily_isSome _ c m (nameFamily_nodup _ _) hm, hlookupM, ?_, ?_⟩
  · exact List.mem_filter.mpr
      ⟨nameFamily_self_mem _ _, by simpa using fun h => hMfam.2 h.symm⟩
  · exact getNameVariants_hit _ n' w' _ (by rw [hn']; exact hlookupM)

/-- **C1, witness** for the amended theorem at a concrete input. -/
theorem C1_family_closure_witness :
    ((fun _ => FetchOutcome.success [some (chars "Kristoffer")] : Wikidata)
        (wikidataRequest (normName (chars "Christopher"))) =
      FetchOutcome.success [some (chars "Kristoffer")]) ∧
    (([] : Cache).lookup (normName (chars "Christopher")) = none) ∧
    (chars "kristoffer" ∈
      (getNameVariants [] (chars "Christopher")
        (fun _ => FetchOutcome.success [some (chars "Kristoffer")])).variants) ∧
    (([] : Cache).lookup (chars "kristoffer") = none) ∧
    (chars "christopher" ∈ nameFamily (normName (chars "Christopher"))
      [some (chars "Kristoffer")]) ∧
    (normName (chars "Kristoffer") = chars "kristoffer") ∧
    (((getNameVariants [] (chars "Christopher")
        (fun _ => FetchOutcome.success [some (chars "Kristoffer")])).cache.lookup
          (chars "christopher")).isSome ∧
      (getNameVariants [] (chars "Christopher")
          (fun _ => FetchOutcome.success [some (chars "Kristoffer")])).cache.lookup
            (chars "kristoffer") =
        some ((nameFamily (normName (chars "Christopher"))
            [some (chars "Kristoffer")]).filter (fun v => v ≠ chars "kristoffer")) ∧
      normName (chars "Christopher") ∈
        (nameFamily (normName (chars "Christopher"))
            [some (chars "Kristoffer")]).filter (fun v => v ≠ chars "kristoffer") ∧
      getNameVariants
          (getNameVariants [] (chars "Christopher")
            (fun _ => FetchOutcome.success [some (chars "Kristoffer")])).cache
          (chars "Kristoffer") (fun _ => FetchOutcome.httpError) =
        ⟨(nameFamily (normName (chars "Christopher"))
            [some (chars "Kristoffer")]).filter (fun v => v ≠ chars "kristoffer"),
         (getNameVariants [] (chars "Christopher")
            (fun _ => FetchOutcome.success [some (chars "Kristoffer")])).cache,
         false⟩) :=
  ⟨rfl, by decide, by decide, by decide, by decide, by decide,
   C1_family_closure [] (chars "Christopher")
     (fun _ => FetchOutcome.success [some (chars "Kristoffer")])
     [some (chars "Kristoffer")] (chars "kristoffer") (chars "christopher")
     (chars "Kristoffer") (fun _ => FetchOutcome.httpError)
     rfl (by decide) (by decide) (by decide) (by decide) (by decide)⟩

/-- **C7.**  On a cache miss where the external lookup times out, throws,
or answers non-success, `getNameVariants` stores an empty list under the
normalized name and returns empty; a subsequent call for any name with
the same normalization answers empty from the cache with no external
call.  (The model function is total: the source wraps the whole body in
`try`/`catch`, so no error reaches the caller.) -/
theorem C7_error_absorption (c : Cache) (n n' : Str) (w w' : Wikidata)
    (hmiss : c.lookup (normName n) = none)
    (hfail : w (wikidataRequest (normName n)) = FetchOutcome.httpError ∨
      w (wikidataRequest (normName n)) = FetchOutcome.thrown)
    (hn' : normName n' = normName n) :
    getNameVariants c n w = ⟨[], cacheSet c (normName n) [], true⟩ ∧
    getNameVariants (cacheSet c (normName n) []) n' w' =
      ⟨[], cacheSet c (normName n) [], false⟩ := by
  refine ⟨getNameVariants_failure c n w hmiss hfail, ?_⟩
  exact getNameVariants_hit _ n' w' [] (by rw [hn']; exact cacheSet_lookup_self c _ [])

/-- **C7, witness** at a concrete input. -/
theorem C7_error_absorption_witness :
    (([] : Cache).lookup (normName (chars "Mikael")) = none) ∧
    ((fun _ => FetchOutcome.thrown : Wikidata)
        (wikidataRequest (normName (chars "Mikael"))) = FetchOutcome.httpError ∨
      (fun _ => FetchOutcome.thrown : Wikidata)
        (wikidataRequest (normName (chars "Mikael"))) = FetchOutcome.thrown) ∧
    (normName (chars " MIKAEL ") = normName (chars "Mikael")) ∧
    (getNameVariants [] (chars "Mikael") (fun _ => FetchOutcome.thrown) =
        ⟨[], cacheSet [] (normName (chars "Mikael")) [], true⟩ ∧
      getNameVariants (cacheSet [] (normName (chars "Mikael")) [])
          (chars " MIKAEL ") (fun _ => FetchOutcome.httpError) =
        ⟨[], cacheSet [] (normName (chars "Mikael")) [], false⟩) :=
  ⟨by decide, Or.inr rfl, by decide,
   C7_error_absorption [] (chars "Mikael") (chars " MIKAEL ")
     (fun _ => FetchOutcome.thrown) (fun _ => FetchOutcome.httpError)
     (by decide) (Or.inr rfl) (by decide)⟩

/-- Once cached, a binding survives any sequence of later calls. -/
theorem runCalls_preserves (calls : List (Str × Wikidata)) :
    ∀ (c : Cache) (k : Str) (v : List Str), c.lookup k = some v →
      (runCalls c calls).lookup k = some v := by
  induction calls with
  | nil => intro c k v h; exact h
  | cons call rest ih =>
    intro c k v h
    exact ih _ k v (getNameVariants_preserves c call.1 call.2 k v h)

/-- **C10.**  The cache is insert-only: a binding, once present, is
returned unchanged by every later call of the process; consequently a
repeated call with a name normalizing the same way returns the first
call's result from the cache, with no external call. -/
theorem C10_cache_insert_only (c : Cache) (calls : List (Str × Wikidata))
    (k : Str) (v : List Str) (c₂ : Cache) (n n' : Str) (w w' : Wikidata)
    (hk : c.lookup k = some v) (hn' : normName n' = normName n) :
    (runCalls c calls).lookup k = some v ∧
    getNameVariants (getNameVariants c₂ n w).cache n' w' =
      ⟨(getNameVariants c₂ n w).variants, (getNameVariants c₂ n w).cache, false⟩ := by
  refine ⟨runCalls_preserves calls c k v hk, ?_⟩
  exact getNameVariants_hit _ n' w' _
    (by rw [hn']; exact getNameVariants_caches_result c₂ n w)

/-- **C10, witness** at a concrete input. -/
theorem C10_cache_insert_only_witness :
    (([(chars "stieg", [chars "stig"])] : Cache).lookup (chars "stieg") =
      some [chars "stig"]) ∧
    (normName (chars "Erik ") = normName (chars "erik")) ∧
    ((runCalls [(chars "stieg", [chars "stig"])]
        [(chars "stieg", fun _ => FetchOutcome.httpError),
         (chars "anna", fun _ => FetchOutcome.success [some (chars "Anne")])]).lookup
          (chars "stieg") = some [chars "stig"] ∧
      getNameVariants
          (getNameVariants [] (chars "erik")
            (fun _ => FetchOutcome.success [some (chars "Eric")])).cache
          (chars "Erik ") (fun _ => FetchOutcome.thrown) =
        ⟨(getNameVariants [] (chars "erik")
            (fun _ => FetchOutcome.success [some (chars "Eric")])).variants,
         (getNameVariants [] (chars "erik")
            (fun _ => FetchOutcome.success [some (chars "Eric")])).cache,
         false⟩) :=
  ⟨by decide, by decide,
   C10_cache_insert_only [(chars "stieg", [chars "stig"])]
     [(chars "stieg", fun _ => FetchOutcome.httpError),
      (chars "anna", fun _ => FetchOutcome.success [some (chars "Anne")])]
     (chars "stieg") [chars "stig"] [] (chars "erik") (chars "Erik ")
     (fun _ => FetchOutcome.success [some (chars "Eric")])
     (fun _ => FetchOutcome.thrown)
     (by decide) (by decide)⟩

end ResolverClaims

section VariantFiltering

/-- **C8, counterexample.**  The code's character class `[a-zA-ZÀ-ÿ\s\-']`
admits the multiplication sign `×` (U+00D7, inside `À`–`ÿ`), so a
successful response with label "A×B" yields the variant "a×b", which
contains a character that is not a Latin-script letter, space, hyphen or
apostrophe. -/
theorem C8_counterexample :
    chars "a×b" ∈ deriveVariants [some (chars "A×B")] ∧
    Char.ofNat 215 ∈ chars "a×b" ∧
    specLatinAllowedChar (Char.ofNat 215) = false := by
  decide

/-- **C8 (amended).**  Every variant derived from a successful response
is non-empty, has length in `[2, 20]`, consists only of characters of
the code's class `[a-zA-ZÀ-ÿ\s\-']` (ASCII letters, the Latin-1 block
U+00C0–U+00FF — which besides letters contains `×` and `÷` — whitespace,
hyphens and apostrophes), contains no character that lowercasing maps
(i.e. is lowercase), the variant list is deduplicated, and the request
sent to the endpoint caps the result at 30 candidate labels. -/
theorem C8_variant_filtering (bindings : List (Option Str)) (v : Str) (n : Str)
    (hv : v ∈ deriveVariants bindings) :
    v ≠ [] ∧ 2 ≤ v.length ∧ v.length ≤ 20 ∧
    (∀ c ∈ v, isLatinChar c = true) ∧
    (∀ c ∈ v, isUpperLatin c = false) ∧
    (deriveVariants bindings).Nodup ∧
    (wikidataRequest n).limit = 30 := by
  unfold deriveVariants at hv
  rw [jsDedup_mem] at hv
  obtain ⟨hv1, hlat⟩ := List.mem_filter.mp hv
  obtain ⟨hv2, hne⟩ := List.mem_filter.mp hv1
  obtain ⟨o, ho, hid⟩ := List.mem_filterMap.mp hv2
  obtain ⟨b, _hb, hbo⟩ := List.mem_map.mp ho
  simp only [id_eq] at hid
  subst hid
  obtain ⟨u, -, hu⟩ := Option.map_eq_some'.mp hbo
  have hlow : ∀ c ∈ v, isUpperLatin c = false := by
    intro c hc
    rw [← hu] at hc
    obtain ⟨c', -, rfl⟩ := List.mem_map.mp hc
    exact lowerChar_not_upper c'
  have hlat' := Bool.and_eq_true _ _ |>.mp hlat
  have hlatin := Bool.and_eq_true _ _ |>.mp hlat'.2
  refine ⟨?_, by simpa using hlatin.1, by simpa using hlatin.2, ?_, hlow,
    jsDedup_nodup _, rfl⟩
  · intro hnil
    rw [hnil] at hne
    simp at hne
  · intro c hc
    have := Bool.and_eq_true _ _ |>.mp hlat'.1
    exact List.all_eq_true.mp this.2 c hc

/-- **C8, witness** for the amended theorem at a concrete input. -/
theorem C8_variant_filtering_witness :
    (chars "kristoffer" ∈ deriveVariants [some (chars "Kristoffer")]) ∧
    (chars "kristoffer" ≠ [] ∧ 2 ≤ (chars "kristoffer").length ∧
      (chars "kristoffer").length ≤ 20 ∧
      (∀ c ∈ chars "kristoffer", isLatinChar c = true) ∧
      (∀ c ∈ chars "kristoffer", isUpperLatin c = false) ∧
      (deriveVariants [some (chars "Kristoffer")]).Nodup ∧
      (wikidataRequest (chars "anna")).limit = 30) :=
  ⟨by decide,
   C8_variant_filtering [some (chars "Kristoffer")] (chars "kristoffer")
     (chars "anna") (by decide)⟩

end VariantFiltering

section ScanLemmas

/-! ## Lemmas about the year-regex scan -/

theorem matchYearHere_spec : ∀ (l m rest : Str), matchYearHere l = some (m, rest) →
    l = m ++ rest ∧ 2 ≤ m.length ∧ ∀ c ∈ m, isDigitChar c = true := by
  intro l m rest h
  match l with
  | [] => simp [matchYearHere] at h
  | [c1] => simp [matchYearHere] at h
  | c1 :: c2 :: t =>
    have hdig : ∀ (x y : Char), (x == '1' && y == '9' || x == '2' && y == '0') = true →
        isDigitChar x = true ∧ isDigitChar y = true := by
      intro x y hxy
      rcases Bool.or_eq_true _ _ |>.mp hxy with h' | h' <;>
      · obtain ⟨e1, e2⟩ := Bool.and_eq_true _ _ |>.mp h'
        rw [beq_iff_eq] at e1 e2
        subst e1; subst e2
        exact ⟨by decide, by decide⟩
    simp only [matchYearHere] at h
    split at h
    case isTrue h19 =>
      obtain ⟨h1, h2⟩ := hdig c1 c2 h19
      split at h
      case h_1 d1 d2 rest2 =>
        split at h
        case isTrue hb =>
          obtain ⟨hb', _⟩ := Bool.and_eq_true _ _ |>.mp hb
          obtain ⟨hd1, hd2⟩ := Bool.and_eq_true _ _ |>.mp hb'
          obtain ⟨rfl, rfl⟩ : [c1, c2, d1, d2] = m ∧ rest2 = rest := by simpa using h
          refine ⟨by simp, by simp, ?_⟩
          intro c hc
          simp only [List.mem_cons, List.not_mem_nil, or_false] at hc
          rcases hc with rfl | rfl | rfl | rfl <;> assumption
        case isFalse =>
          split at h
          case isTrue hb =>
            obtain ⟨hd1, _⟩ := Bool.and_eq_true _ _ |>.mp hb
            obtain ⟨rfl, rfl⟩ : [c1, c2, d1] = m ∧ d2 :: rest2 = rest := by simpa using h
            refine ⟨by simp, by simp, ?_⟩
            intro c hc
            simp only [List.mem_cons, List.not_mem_nil, or_false] at hc
            rcases hc with rfl | rfl | rfl <;> assumption
          case isFalse =>
            split at h
            case isTrue hb =>
              obtain ⟨rfl, rfl⟩ : [c1, c2] = m ∧ d1 :: d2 :: rest2 = rest := by simpa using h
              refine ⟨by simp, by simp, ?_⟩
              intro c hc
              simp only [List.mem_cons, List.not_mem_nil, or_false] at hc
              rcases hc with rfl | rfl <;> assumption
            case isFalse => exact absurd h (by simp)
      case h_2 d1 =>
        split at h
        case isTrue hd1 =>
          obtain ⟨rfl, rfl⟩ : [c1, c2, d1] = m ∧ ([] : Str) = rest := by simpa using h
          refine ⟨by simp, by simp, ?_⟩
          intro c hc
          simp only [List.mem_cons, List.not_mem_nil, or_false] at hc
          rcases hc with rfl | rfl | rfl <;> assumption
        case isFalse =>
          split at h
          case isTrue hb =>
            obtain ⟨rfl, rfl⟩ : [c1, c2] = m ∧ [d1] = rest := by simpa using h
            refine ⟨by simp, by simp, ?_⟩
            intro c hc
            simp only [List.mem_cons, List.not_mem_nil, or_false] at hc
            rcases hc with rfl | rfl <;> assumption
          case isFalse => exact absurd h (by simp)
      case h_3 =>
        obtain ⟨rfl, rfl⟩ : [c1, c2] = m ∧ ([] : Str) = rest := by simpa using h
        refine ⟨by simp, by simp, ?_⟩
        intro c hc
        simp only [List.mem_cons, List.not_mem_nil, or_false] at hc
        rcases hc with rfl | rfl <;> assumption
    case isFalse => exact absurd h (by simp)


theorem scanYearsAux_matches : ∀ (fuel : Nat) (b : Bool) (l m : Str),
    m ∈ (scanYearsAux fuel b l).1 →
    m <:+: l ∧ 2 ≤ m.length ∧ ∀ c ∈ m, isDigitChar c = true := by
  intro fuel
  induction fuel with
  | zero => intro b l m hm; simp [scanYearsAux] at hm
  | succ n ih =>
    intro b l m hm
    match l with
    | [] => simp [scanYearsAux] at hm
    | c :: cs =>
      simp only [scanYearsAux] at hm
      split at hm
      · obtain ⟨hi, h2, hd⟩ := ih (isWordChar c) cs m hm
        exact ⟨List.infix_cons hi, h2, hd⟩
      · split at hm
        case h_1 m0 rest heq =>
          obtain ⟨hl, h2, hd⟩ := matchYearHere_spec (c :: cs) m0 rest heq
          rcases List.mem_cons.mp hm with rfl | hm'
          · exact ⟨⟨[], rest, by simp [hl.symm]⟩, h2, hd⟩
          · obtain ⟨hi, h2', hd'⟩ := ih true rest m hm'
            refine ⟨hi.trans ⟨m0, [], by simp [hl.symm]⟩, h2', hd'⟩
        case h_2 =>
          obtain ⟨hi, h2, hd⟩ := ih (isWordChar c) cs m hm
          exact ⟨List.infix_cons hi, h2, hd⟩

theorem scanYearsAux_residual : ∀ (fuel : Nat) (b : Bool) (l : Str),
    (scanYearsAux fuel b l).1 = [] → (scanYearsAux fuel b l).2 = l := by
  intro fuel
  induction fuel with
  | zero => intro b l _; rfl
  | succ n ih =>
    intro b l hm
    match l with
    | [] => rfl
    | c :: cs =>
      simp only [scanYearsAux] at hm ⊢
      split at hm
      · rw [if_pos (by assumption)]
        simp only [List.cons.injEq, true_and]
        exact ih (isWordChar c) cs hm
      · rw [if_neg (by assumption)]
        split at hm
        case h_1 m0 rest heq => simp at hm
        case h_2 heq =>
          simp only [List.cons.injEq, true_and]
          exact ih (isWordChar c) cs hm

end ScanLemmas

section TrimLemmas

/-! ## Trim and whitespace-count lemmas -/

theorem trimStr_decomp (l : Str) :
    ∃ p s, l = p ++ trimStr l ++ s ∧
      (∀ c ∈ p, isWsChar c = true) ∧ (∀ c ∈ s, isWsChar c = true) := by
  refine ⟨l.takeWhile isWsChar,
    ((l.dropWhile isWsChar).reverse.takeWhile isWsChar).reverse, ?_, ?_, ?_⟩
  · simp only [trimStr]
    conv_lhs => rw [← List.takeWhile_append_dropWhile isWsChar l]
    have hd : l.dropWhile isWsChar =
        ((l.dropWhile isWsChar).reverse.dropWhile isWsChar).reverse ++
          ((l.dropWhile isWsChar).reverse.takeWhile isWsChar).reverse := by
      conv_lhs => rw [← List.reverse_reverse (l.dropWhile isWsChar),
        ← List.takeWhile_append_dropWhile isWsChar (l.dropWhile isWsChar).reverse]
      rw [List.reverse_append]
    rw [List.append_assoc]
    rw [← hd]
  · exact fun c hc => List.mem_takeWhile_imp hc
  · intro c hc
    rw [List.mem_reverse] at hc
    exact List.mem_takeWhile_imp hc

theorem trimStr_length_ge_two (l : Str) (c1 c2 : Char) (h : [c1, c2] <:+: l)
    (h1 : isWsChar c1 = false) (h2 : isWsChar c2 = false) :
    2 ≤ (trimStr l).length := by
  obtain ⟨p, s, hdec, hp, hs⟩ := trimStr_decomp l
  have hcount2 : 2 ≤ l.countP (fun c => !isWsChar c) := by
    have := List.Sublist.countP_le (fun c => !isWsChar c) h.sublist
    simpa [List.countP_cons, h1, h2] using this
  have hps : l.countP (fun c => !isWsChar c) =
      (trimStr l).countP (fun c => !isWsChar c) := by
    conv_lhs => rw [hdec]
    rw [List.countP_append, List.countP_append]
    have hp0 : p.countP (fun c => !isWsChar c) = 0 :=
      List.countP_eq_zero.mpr (fun a ha => by simp [hp a ha])
    have hs0 : s.countP (fun c => !isWsChar c) = 0 :=
      List.countP_eq_zero.mpr (fun a ha => by simp [hs a ha])
    rw [hp0, hs0]
    omega
  have := List.countP_le_length (fun c => !isWsChar c) (l := trimStr l)
  omega

theorem isDigitChar_not_ws (c : Char) (h : isDigitChar c = true) : isWsChar c = false := by
  simp only [isDigitChar, Bool.and_eq_true, decide_eq_true_eq] at h
  simp only [isWsChar, Bool.or_eq_true, Bool.and_eq_true, beq_iff_eq, decide_eq_true_eq]
  rw [Bool.eq_false_iff]
  intro htrue
  simp only [Bool.or_eq_true, Bool.and_eq_true, beq_iff_eq, decide_eq_true_eq] at htrue
  omega

/-- On a query whose trimmed form is shorter than 2 characters the regex
finds nothing, so the residual text query is just the trimmed query. -/
theorem yearScan_short (q : Str) (h : (trimStr q).length < 2) :
    suggestYearMatches q = [] ∧ suggestTextQuery q = trimStr q := by
  have hmatches : suggestYearMatches q = [] := by
    cases hm : suggestYearMatches q with
    | nil => rfl
    | cons m ms =>
      exfalso
      have hmem : m ∈ (scanYearsAux q.length false q).1 := by
        have h' : m ∈ suggestYearMatches q := by rw [hm]; exact List.mem_cons_self m ms
        simpa [suggestYearMatches, yearScan] using h' 
      obtain ⟨hi, h2, hd⟩ := scanYearsAux_matches q.length false q m hmem
      match m, h2 with
      | d1 :: d2 :: mrest, _ =>
        have hinfix : [d1, d2] <:+: q := by
          refine List.IsInfix.trans ?_ hi
          exact ⟨[], mrest, by simp⟩
        have hlen := trimStr_length_ge_two q d1 d2 hinfix
          (isDigitChar_not_ws d1 (hd d1 (by simp)))
          (isDigitChar_not_ws d2 (hd d2 (by simp)))
        omega
  refine ⟨hmatches, ?_⟩
  unfold suggestTextQuery yearScan
  unfold suggestYearMatches yearScan at hmatches
  rw [scanYearsAux_residual q.length false q hmatches]

end TrimLemmas

section SuggestClaims1

/-- When both gates are closed the federated body answers the empty
envelope without consulting the engine. -/
theorem suggestCore_all_gated (pf : Bool) (eng : Engine) (qs : Str) (af : ActiveFilters)
    (htext : ¬ 2 ≤ (suggestTextQuery qs).length)
    (hyears : suggestYearMatches qs = []) :
    suggestCore pf eng qs af = ⟨.ok ⟨[], [], [], []⟩, []⟩ := by
  simp [suggestCore, suggestResults, hyears, htext, firstError, assemblePayload,
    Except.toOption]

/-- **C2.**  For every request whose raw query is missing or trims to
fewer than 2 characters, the suggest handler answers 200 with all four
lists empty and issues no engine call: either the untrimmed guard fires,
or (when only the trimmed length is short) every category gate is closed
and the four immediate defaults produce the same empty envelope. -/
theorem C2_short_query_guard (pf : Bool) (eng : Engine) (q : Option Str) (af : ActiveFilters)
    (h : ∀ qs, q = some qs → (trimStr qs).length < 2) :
    suggest pf eng q af = ⟨.ok ⟨[], [], [], []⟩, []⟩ := by
  cases q with
  | none => rfl
  | some qs =>
    have hshort := h qs rfl
    simp only [suggest]
    by_cases hlen : qs.length < 2
    · rw [if_pos hlen]
    · rw [if_neg hlen]
      obtain ⟨hm, ht⟩ := yearScan_short qs hshort
      exact suggestCore_all_gated pf eng qs af (by rw [ht]; omega) hm

/-- **C2, witness**: the query `" a "` has untrimmed length 3 (the guard
does not fire) but still produces the empty envelope with no engine
call. -/
theorem C2_short_query_guard_witness :
    (∀ qs, some (chars " a ") = some qs → (trimStr qs).length < 2) ∧
    suggest true ⟨fun _ => .ok [], fun _ => .ok [], fun _ => .ok [], fun _ => .ok []⟩
        (some (chars " a ")) ⟨[], [], []⟩ =
      ⟨.ok ⟨[], [], [], []⟩, []⟩ :=
  ⟨fun qs hq => by injection hq with h2; rw [← h2]; decide,
   C2_short_query_guard true
     ⟨fun _ => .ok [], fun _ => .ok [], fun _ => .ok [], fun _ => .ok []⟩
     (some (chars " a ")) ⟨[], [], []⟩
     (fun qs hq => by injection hq with h2; rw [← h2]; decide)⟩

/-- **C3.**  Evaluation at the failing input `"xy 19"`: the code's regex
`\b(19|20)\d{0,2}\b` admits the bare two-digit token `"19"`, so the
extraction returns `["19"]` and removes it from the residual text query
("xy") — whereas the claim (and the code's own comment, "3-4 digits")
says only runs of 3–4 digits are extracted, which would leave `"xy 19"`
untouched. -/
theorem C3_year_extraction_two_digit :
    suggestYearMatches (chars "xy 19") = [chars "19"] ∧
    (chars "19").length = 2 ∧
    suggestTextQuery (chars "xy 19") = chars "xy" ∧
    suggestQueryTerms (chars "xy 19") = [chars "xy"] := by
  decide

/-- **C4.**  Asymmetric filtering: the authors query carries exactly the
active genre and year filters (never the author filter); the genres
query carries exactly the active author and year filters; the years
query carries exactly the active author and genre filters; the titles
query carries all three active filters. -/
theorem C4_asymmetric_filtering (pf : Bool) (tq : Str) (terms yp : List Str)
    (af : ActiveFilters) :
    (suggestAuthorsQuery pf tq af).filters =
      (if af.genres ≠ [] then [FilterClause.byGenre af.genres] else []) ++
      (if af.years ≠ [] then [FilterClause.byYear af.years] else []) ∧
    (suggestGenresQuery terms af).filters =
      (if af.authors ≠ [] then [FilterClause.byAuthor af.authors] else []) ++
      (if af.years ≠ [] then [FilterClause.byYear af.years] else []) ∧
    (suggestYearsQuery yp af).filters =
      (if af.authors ≠ [] then [FilterClause.byAuthor af.authors] else []) ++
      (if af.genres ≠ [] then [FilterClause.byGenre af.genres] else []) ∧
    (suggestTitlesQuery pf tq af).filters =
      (if af.authors ≠ [] then [FilterClause.byAuthor af.authors] else []) ++
      (if af.genres ≠ [] then [FilterClause.byGenre af.genres] else []) ++
      (if af.years ≠ [] then [FilterClause.byYear af.years] else []) := by
  by_cases ha : af.authors = [] <;> by_cases hg : af.genres = [] <;>
    by_cases hy : af.years = [] <;>
    simp [suggestAuthorsQuery, suggestGenresQuery, suggestYearsQuery,
      suggestTitlesQuery, buildFilterClause, ha, hg, hy,
      FilterClause.isAuthorClause, FilterClause.isGenreClause, FilterClause.isYearClause]

end SuggestClaims1

section SuggestCaseAnalysis

/-- Case analysis of the federated body: its calls are the two gated
groups, and its result is either the first failing engine result's
error or the assembled payload of the four unwrapped results. -/
theorem suggestCore_cases (pf : Bool) (eng : Engine) (qs : Str) (af : ActiveFilters) :
    (suggestCore pf eng qs af).calls =
      ((if 2 ≤ (suggestTextQuery qs).length then
          [IssuedCall.authorsQ (suggestAuthorsQuery pf (suggestTextQuery qs) af),
           IssuedCall.titlesQ (suggestTitlesQuery pf (suggestTextQuery qs) af),
           IssuedCall.genresQ (suggestGenresQuery (suggestQueryTerms qs) af)]
        else []) ++
       (if suggestYearMatches qs ≠ [] then
          [IssuedCall.yearsQ (suggestYearsQuery (suggestYearMatches qs) af)]
        else [])) ∧
    ((∃ e, firstError (suggestResults pf eng qs af).1 (suggestResults pf eng qs af).2.1
          (suggestResults pf eng qs af).2.2.1 (suggestResults pf eng qs af).2.2.2 = some e ∧
        (suggestCore pf eng qs af).result = .fail e) ∨
     (firstError (suggestResults pf eng qs af).1 (suggestResults pf eng qs af).2.1
          (suggestResults pf eng qs af).2.2.1 (suggestResults pf eng qs af).2.2.2 = none ∧
      (suggestCore pf eng qs af).result =
        .ok (assemblePayload (suggestQueryTerms qs) (suggestYearMatches qs)
          ((suggestResults pf eng qs af).1.toOption.getD [])
          ((suggestResults pf eng qs af).2.1.toOption.getD [])
          ((suggestResults pf eng qs af).2.2.1.toOption.getD [])
          ((suggestResults pf eng qs af).2.2.2.toOption.getD [])))) := by
  cases hfe : firstError (suggestResults pf eng qs af).1 (suggestResults pf eng qs af).2.1
      (suggestResults pf eng qs af).2.2.1 (suggestResults pf eng qs af).2.2.2 with
  | some e =>
    exact ⟨by simp [suggestCore, hfe], Or.inl ⟨e, rfl, by simp [suggestCore, hfe]⟩⟩
  | none =>
    exact ⟨by simp [suggestCore, hfe], Or.inr ⟨rfl, by simp [suggestCore, hfe]⟩⟩

theorem firstError_none_iff {α β γ δ : Type} (a : Except Str α) (b : Except Str β)
    (c : Except Str γ) (d : Except Str δ) :
    firstError a b c d = none ↔
      ([exceptErr a, exceptErr b, exceptErr c, exceptErr d].filterMap id) = [] := by
  cases a <;> cases b <;> cases c <;> cases d <;> simp [firstError, exceptErr]

theorem firstError_mem {α β γ δ : Type} (a : Except Str α) (b : Except Str β)
    (c : Except Str γ) (d : Except Str δ) (e : Str) (h : firstError a b c d = some e) :
    e ∈ [exceptErr a, exceptErr b, exceptErr c, exceptErr d].filterMap id := by
  cases a <;> cases b <;> cases c <;> cases d <;>
    simp [firstError, exceptErr] at h ⊢ <;> simp [h]

end SuggestCaseAnalysis

section SuggestClaims2

/-- **C5.**  In every 200 response, each authors/titles/genres
suggestion carries as `matchedTerms` exactly those residual lowercase
query terms that occur (case-insensitively) inside the suggestion's
value — the book title for titles — in term order (a sublist of the
term list). -/
theorem C5_matched_terms (pf : Bool) (eng : Engine) (qs : Str) (af : ActiveFilters)
    (p : Payload) (hok : (suggest pf eng (some qs) af).result = .ok p) :
    (∀ s ∈ p.authors, List.Sublist s.matchedTerms (suggestQueryTerms qs) ∧
      ∀ t : Str, t ∈ s.matchedTerms ↔ t ∈ suggestQueryTerms qs ∧ t <:+: lowerStr s.value) ∧
    (∀ s ∈ p.titles, List.Sublist s.matchedTerms (suggestQueryTerms qs) ∧
      ∀ t : Str, t ∈ s.matchedTerms ↔ t ∈ suggestQueryTerms qs ∧ t <:+: lowerStr s.value) ∧
    (∀ s ∈ p.genres, List.Sublist s.matchedTerms (suggestQueryTerms qs) ∧
      ∀ t : Str, t ∈ s.matchedTerms ↔ t ∈ suggestQueryTerms qs ∧ t <:+: lowerStr s.value) := by
  simp only [suggest] at hok
  by_cases hlen : qs.length < 2
  · rw [if_pos hlen] at hok
    obtain rfl : Payload.mk [] [] [] [] = p := by simpa using hok
    simp
  · rw [if_neg hlen] at hok
    obtain ⟨-, hres⟩ := suggestCore_cases pf eng qs af
    rcases hres with ⟨e, -, hfail⟩ | ⟨-, hokr⟩
    · rw [hfail] at hok
      exact absurd hok (by simp)
    · rw [hokr] at hok
      obtain rfl : assemblePayload (suggestQueryTerms qs) (suggestYearMatches qs)
          ((suggestResults pf eng qs af).1.toOption.getD [])
          ((suggestResults pf eng qs af).2.1.toOption.getD [])
          ((suggestResults pf eng qs af).2.2.1.toOption.getD [])
          ((suggestResults pf eng qs af).2.2.2.toOption.getD []) = p := by
        simpa using hok
      refine ⟨?_, ?_, ?_⟩ <;> intro s hs
      · obtain ⟨b, -, rfl⟩ := List.mem_map.mp hs
        refine ⟨List.filter_sublist _, ?_⟩
        intro t
        simp [findMatchedTerms, List.mem_filter]
      · obtain ⟨h', -, rfl⟩ := List.mem_map.mp hs
        refine ⟨List.filter_sublist _, ?_⟩
        intro t
        simp [findMatchedTerms, List.mem_filter]
      · obtain ⟨b, -, rfl⟩ := List.mem_map.mp hs
        refine ⟨List.filter_sublist _, ?_⟩
        intro t
        simp [findMatchedTerms, List.mem_filter]

/-- **C5, witness** at a concrete input. -/
theorem C5_matched_terms_witness :
    ((suggest false
        ⟨fun _ => .ok [Bucket.mk (chars "Dan Brown") 1],
         fun _ => .ok [], fun _ => .ok [], fun _ => .ok []⟩
        (some (chars "dan")) ⟨[], [], []⟩).result =
      .ok (Payload.mk [FacetSug.mk (chars "Dan Brown") 1 [chars "dan"]] [] [] [])) ∧
    (∀ s ∈ (Payload.mk [FacetSug.mk (chars "Dan Brown") 1 [chars "dan"]] [] [] []).authors,
      List.Sublist s.matchedTerms (suggestQueryTerms (chars "dan")) ∧
      ∀ t : Str, t ∈ s.matchedTerms ↔
        t ∈ suggestQueryTerms (chars "dan") ∧ t <:+: lowerStr s.value) :=
  ⟨by decide,
   (C5_matched_terms false
     ⟨fun _ => .ok [Bucket.mk (chars "Dan Brown") 1],
      fun _ => .ok [], fun _ => .ok [], fun _ => .ok []⟩
     (chars "dan") ⟨[], [], []⟩
     (Payload.mk [FacetSug.mk (chars "Dan Brown") 1 [chars "dan"]] [] [] [])
     (by decide)).1⟩

/-- **C6.**  The years category: the years aggregation always requests
up to 10 distinct years ordered descending by key; a years engine call
is issued exactly when a year-like substring was detected; with no
pattern the years list of a 200 response is empty (and no years call is
made); and every year in the final list has a decimal rendering that
starts with one of the detected substrings. -/
theorem C6_years_category (pf : Bool) (eng : Engine) (qs : Str) (af : ActiveFilters)
    (p : Payload) (hok : (suggest pf eng (some qs) af).result = .ok p) :
    (∀ (yp : List Str) (af' : ActiveFilters),
      (suggestYearsQuery yp af').aggSize = 10 ∧
      (suggestYearsQuery yp af').aggOrderKeyDesc = true) ∧
    ((∃ qy, IssuedCall.yearsQ qy ∈ (suggest pf eng (some qs) af).calls) ↔
      suggestYearMatches qs ≠ []) ∧
    (suggestYearMatches qs = [] → p.years = []) ∧
    (∀ y ∈ p.years, ∃ ypat ∈ suggestYearMatches qs,
      ypat.isPrefixOf (intToStr y.value) = true) := by
  refine ⟨fun yp af' => ⟨rfl, rfl⟩, ?_, ?_, ?_⟩
  · constructor
    · rintro ⟨qy, hqy⟩
      simp only [suggest] at hqy
      by_cases hlen : qs.length < 2
      · rw [if_pos hlen] at hqy
        exact absurd hqy (by simp)
      · rw [if_neg hlen] at hqy
        obtain ⟨hcalls, -⟩ := suggestCore_cases pf eng qs af
        rw [hcalls] at hqy
        rcases List.mem_append.mp hqy with hin | hin
        · by_cases hg : 2 ≤ (suggestTextQuery qs).length
          · rw [if_pos hg] at hin
            exact absurd hin (by simp)
          · rw [if_neg hg] at hin
            exact absurd hin (by simp)
        · by_cases hy : suggestYearMatches qs ≠ []
          · exact hy
          · rw [if_neg hy] at hin
            exact absurd hin (by simp)
    · intro hne
      have hlen : ¬ qs.length < 2 := by
        cases hmv : suggestYearMatches qs with
        | nil => exact absurd hmv hne
        | cons m ms =>
          have hmem : m ∈ (scanYearsAux qs.length false qs).1 := by
            have h' : m ∈ suggestYearMatches qs := by
              rw [hmv]; exact List.mem_cons_self m ms
            simpa [suggestYearMatches, yearScan] using h'
          obtain ⟨hi, h2, -⟩ := scanYearsAux_matches qs.length false qs m hmem
          have := hi.length_le
          omega
      simp only [suggest]
      rw [if_neg hlen]
      obtain ⟨hcalls, -⟩ := suggestCore_cases pf eng qs af
      rw [hcalls]
      refine ⟨suggestYearsQuery (suggestYearMatches qs) af, ?_⟩
      rw [if_pos hne]
      exact List.mem_append_right _ (List.mem_cons_self _ _)
  · intro hm
    simp only [suggest] at hok
    by_cases hlen : qs.length < 2
    · rw [if_pos hlen] at hok
      obtain rfl : Payload.mk [] [] [] [] = p := by simpa using hok
      rfl
    · rw [if_neg hlen] at hok
      obtain ⟨-, hres⟩ := suggestCore_cases pf eng qs af
      rcases hres with ⟨e, -, hfail⟩ | ⟨-, hokr⟩
      · rw [hfail] at hok
        exact absurd hok (by simp)
      · rw [hokr] at hok
        have hyres : (suggestResults pf eng qs af).2.2.2 = .ok [] := by
          simp [suggestResults, hm]
        rw [hyres] at hok
        obtain rfl := (by simpa using hok :
          assemblePayload (suggestQueryTerms qs) (suggestYearMatches qs)
            ((suggestResults pf eng qs af).1.toOption.getD [])
            ((suggestResults pf eng qs af).2.1.toOption.getD [])
            ((suggestResults pf eng qs af).2.2.1.toOption.getD [])
            ((Except.ok [] : Except Str (List YearBucket)).toOption.getD []) = p)
        simp [assemblePayload, hm, Except.toOption]
  · intro y hy
    simp only [suggest] at hok
    by_cases hlen : qs.length < 2
    · rw [if_pos hlen] at hok
      obtain rfl : Payload.mk [] [] [] [] = p := by simpa using hok
      exact absurd hy (by simp)
    · rw [if_neg hlen] at hok
      obtain ⟨-, hres⟩ := suggestCore_cases pf eng qs af
      rcases hres with ⟨e, -, hfail⟩ | ⟨-, hokr⟩
      · rw [hfail] at hok
        exact absurd hok (by simp)
      · rw [hokr] at hok
        obtain rfl : assemblePayload (suggestQueryTerms qs) (suggestYearMatches qs)
            ((suggestResults pf eng qs af).1.toOption.getD [])
            ((suggestResults pf eng qs af).2.1.toOption.getD [])
            ((suggestResults pf eng qs af).2.2.1.toOption.getD [])
            ((suggestResults pf eng qs af).2.2.2.toOption.getD []) = p := by
          simpa using hok
        by_cases hg : suggestYearMatches qs ≠ []
        · have hy' := hy
          simp only [assemblePayload, if_pos hg] at hy'
          obtain ⟨hy2, hany⟩ := List.mem_filter.mp hy'
          obtain ⟨ypat, hyp, hpref⟩ := List.any_eq_true.mp hany
          exact ⟨ypat, hyp, hpref⟩
        · have hyres : (suggestResults pf eng qs af).2.2.2 = .ok [] := by
            push_neg at hg
            simp [suggestResults, hg]
          have hy' := hy
          simp only [assemblePayload, if_neg hg, hyres, Except.toOption] at hy'
          exact absurd hy' (by simp)

/-- **C6, witness** at a concrete input: query `"dan 2023"` with one
matching 2023 bucket and one non-matching 1999 bucket. -/
theorem C6_years_category_witness :
    ((suggest false
        ⟨fun _ => .ok [], fun _ => .ok [], fun _ => .ok [],
         fun _ => .ok [YearBucket.mk 2023 4, YearBucket.mk 1999 7]⟩
        (some (chars "dan 2023")) ⟨[], [], []⟩).result =
      .ok (Payload.mk [] [] [] [YearSug.mk 2023 4])) ∧
    (∀ y ∈ (Payload.mk [] [] [] [YearSug.mk 2023 4]).years,
      ∃ ypat ∈ suggestYearMatches (chars "dan 2023"),
        ypat.isPrefixOf (intToStr y.value) = true) :=
  ⟨by decide,
   (C6_years_category false
     ⟨fun _ => .ok [], fun _ => .ok [], fun _ => .ok [],
      fun _ => .ok [YearBucket.mk 2023 4, YearBucket.mk 1999 7]⟩
     (chars "dan 2023") ⟨[], [], []⟩
     (Payload.mk [] [] [] [YearSug.mk 2023 4]) (by decide)).2.2.2⟩

/-- **C9.**  Fan-out/fan-in error policy: once the request passes the
guard, if any gated engine query fails the whole request fails with one
failing query's error message (no partial lists); if none fails, the
request succeeds with a 200 payload. -/
theorem C9_all_or_nothing (pf : Bool) (eng : Engine) (qs : Str) (af : ActiveFilters)
    (h2 : ¬ qs.length < 2) :
    (suggestErrors pf eng qs af ≠ [] →
      ∃ e, (suggest pf eng (some qs) af).result = .fail e ∧
        e ∈ suggestErrors pf eng qs af) ∧
    (suggestErrors pf eng qs af = [] →
      ∃ p, (suggest pf eng (some qs) af).result = .ok p) := by
  simp only [suggest]
  rw [if_neg h2]
  obtain ⟨-, hres⟩ := suggestCore_cases pf eng qs af
  rcases hres with ⟨e, hfe, hfail⟩ | ⟨hfe, hokr⟩
  · constructor
    · intro _
      exact ⟨e, hfail, firstError_mem _ _ _ _ e hfe⟩
    · intro herrs
      have hmem : e ∈ suggestErrors pf eng qs af := firstError_mem _ _ _ _ e hfe
      rw [herrs] at hmem
      exact absurd hmem (by simp)
  · constructor
    · intro herrs
      rw [firstError_none_iff] at hfe
      exact absurd hfe herrs
    · intro _
      exact ⟨_, hokr⟩

/-- **C9, witness** at a concrete input: a failing titles query fails the
whole request with its message. -/
theorem C9_all_or_nothing_witness :
    (¬ (chars "dan").length < 2) ∧
    (suggestErrors false
        ⟨fun _ => .ok [], fun _ => .error (chars "boom"), fun _ => .ok [],
         fun _ => .ok []⟩ (chars "dan") ⟨[], [], []⟩ ≠ [] →
      ∃ e, (suggest false
          ⟨fun _ => .ok [], fun _ => .error (chars "boom"), fun _ => .ok [],
           fun _ => .ok []⟩ (some (chars "dan")) ⟨[], [], []⟩).result = .fail e ∧
        e ∈ suggestErrors false
          ⟨fun _ => .ok [], fun _ => .error (chars "boom"), fun _ => .ok [],
           fun _ => .ok []⟩ (chars "dan") ⟨[], [], []⟩) :=
  ⟨by decide,
   (C9_all_or_nothing false
     ⟨fun _ => .ok [], fun _ => .error (chars "boom"), fun _ => .ok [],
      fun _ => .ok []⟩ (chars "dan") ⟨[], [], []⟩ (by decide)).1⟩

end SuggestClaims2
